import Mathlib

/-!
Verification of the VARO rebilling spreadsheet processor (frontend `app.js`,
its README-documented business rules, and the server contract described in
the specification) against the natural-language specification.

The JavaScript code is shallowly embedded: rows are lists of JavaScript
values, numbers are modelled as integers (all quantities relevant to the
claims are integral), stateful browser objects are passed explicitly, and
fallible operations return `Except`/`Option`.
-/

namespace App

/-- Model of a JavaScript value as found in a spreadsheet cell or settings
field.  Numbers are modelled as integers. -/
inductive JSVal where
  | null
  | undefined
  | str (s : String)
  | num (n : Int)
  | bool (b : Bool)
  deriving DecidableEq, Repr

/-- Truthiness of a JavaScript value (`Boolean(v)`): `null`, `undefined`,
the empty string, the number `0` and `false` are falsy. -/
def truthy : JSVal → Bool
  | JSVal.null => false
  | JSVal.undefined => false
  | JSVal.str s => !(s == "")
  | JSVal.num n => !(n == 0)
  | JSVal.bool b => b

/-- JavaScript `String(v)` conversion. -/
def jsToString : JSVal → String
  | JSVal.null => "null"
  | JSVal.undefined => "undefined"
  | JSVal.str s => s
  | JSVal.num n => toString n
  | JSVal.bool b => if b then "true" else "false"

/-- JavaScript `a || b`: returns `a` when truthy, otherwise `b`. -/
def jsOr (a b : JSVal) : JSVal :=
  if truthy a then a else b

/-- Whitespace characters removed by JavaScript `String.prototype.trim`
(restricted to the ASCII whitespace occurring in the data). -/
def isWhitespaceJS (c : Char) : Bool :=
  c == ' ' || c == '\t' || c == '\n' || c == '\r'

/-- JavaScript `String.prototype.trim` on ASCII data: drop leading and
trailing whitespace. -/
def jsTrim (s : String) : String :=
  String.mk (((s.data.dropWhile isWhitespaceJS).reverse.dropWhile isWhitespaceJS).reverse)

/-- JavaScript `String.prototype.toUpperCase` on ASCII data. -/
def jsToUpper (s : String) : String :=
  String.mk (s.data.map Char.toUpper)

/-- Embedding of `ExcelProcessor.normalize` (app.js):
`value ? String(value).trim().toUpperCase() : ''`. -/
def normalize (v : JSVal) : String :=
  if truthy v then jsToUpper (jsTrim (jsToString v)) else ""

example : normalize (JSVal.str "  midlands ") = "MIDLANDS" := by decide
example : normalize JSVal.null = "" := by decide

/-- Claim C4: for every value reaching `normalize` from a rule-trigger or
lookup-key comparison (such values are either truthy or the empty string,
because every call site guards with `|| ''`), `normalize` returns the value
converted to a string, trimmed of surrounding whitespace and uppercased;
for `null`, `undefined` or empty-string input it returns the empty
string. -/
theorem claim_C4_normalize :
    (∀ v : JSVal, (truthy v = true ∨ v = JSVal.str "") →
      normalize v = jsToUpper (jsTrim (jsToString v)))
    ∧ normalize JSVal.null = ""
    ∧ normalize JSVal.undefined = ""
    ∧ normalize (JSVal.str "") = "" := by
  refine ⟨?_, rfl, rfl, rfl⟩
  intro v h
  rcases h with h | h
  · simp [normalize, h]
  · subst h; rfl

/-- Witness for claim C4 at concrete inputs. -/
theorem claim_C4_normalize_witness :
    normalize (JSVal.str " midlands ") = jsToUpper (jsTrim (jsToString (JSVal.str " midlands ")))
    ∧ normalize JSVal.null = "" :=
  ⟨claim_C4_normalize.1 (JSVal.str " midlands ") (Or.inl (by decide)),
   claim_C4_normalize.2.1⟩

/-!
Workbook validation (`ExcelProcessor.validateFile` /
`ExcelProcessor.validateSheetColumns` in app.js).
-/

/-- Populated extent of one worksheet as exposed by the XLSX library:
`endCol` is `decode_range(sheet['!ref']).e.c` (zero-based index of the last
populated column) and `rowCount` is the number of rows returned by
`sheet_to_json(sheet, {header: 1})`. -/
structure Sheet where
  endCol : Nat
  rowCount : Nat
  deriving DecidableEq, Repr

/-- Workbook: the sheets with their names, in `SheetNames` order. -/
structure Workbook where
  sheets : List (String × Sheet)
  deriving DecidableEq, Repr

/-- Model of `workbook.SheetNames`. -/
def Workbook.sheetNames (wb : Workbook) : List String :=
  wb.sheets.map Prod.fst

/-- Model of `workbook.Sheets[name]` property lookup. -/
def Workbook.getSheet (wb : Workbook) (name : String) : Option Sheet :=
  (wb.sheets.find? (fun p => p.1 == name)).map Prod.snd

/-- Sheet-name overrides from the settings panel (`getSettings`); text
inputs yield strings, `""` meaning "no override" (falsy in JavaScript). -/
structure Settings where
  rawSheet1Name : String
  rawSheet2Name : String
  rawSheet3Name : String
  deriving DecidableEq, Repr

/-- Resolution `settings.rawSheetiName || sheetNames[i]`: an out-of-range
index yields `undefined`, which JavaScript property access coerces to the
string key `"undefined"`. -/
def resolveSheetName (override : String) (names : List String) (i : Nat) : String :=
  if override == "" then names.getD i "undefined" else override

/-- Embedding of `XLSX.utils.decode_col`: bijective base-26 decoding of a
column-letter address, zero-based (`decode_col "B" = 1`,
`decode_col "AA" = 26`). -/
def decode_col (s : String) : Nat :=
  s.data.foldl (fun acc ch => acc * 26 + (ch.toNat - 64)) 0 - 1

example : decode_col "B" = 1 := by decide
example : decode_col "AA" = 26 := by decide
example : decode_col "BZ" = 77 := by decide

/-- Validation failures thrown by `validateFile`; the `Nat` in
`missingSheet` records which of the three raw sheets was reported. -/
inductive ValidationError where
  | missingSheet (slot : Nat) (name : String)
  | missingColumn (col : String) (sheet : String)
  | insufficientRows
  deriving DecidableEq, Repr

/-- Mandatory columns of the primary sheet (Raw Sheet 1). -/
def sheet1Columns : List String := ["B", "AA", "M", "L", "Q", "AB", "AD", "AL", "X", "BZ"]

/-- Mandatory columns of Raw Sheet 2. -/
def sheet2Columns : List String := ["N", "AQ", "AV"]

/-- Mandatory columns of Raw Sheet 3. -/
def sheet3Columns : List String := ["M", "BR", "CN"]

/-- Embedding of `ExcelProcessor.validateSheetColumns`: throw on the first
required column whose index exceeds the populated column range. -/
def validateSheetColumns (name : String) (sheet : Sheet) :
    List String → Except ValidationError Unit
  | [] => Except.ok ()
  | c :: rest =>
    if sheet.endCol < decode_col c then
      Except.error (ValidationError.missingColumn c name)
    else validateSheetColumns name sheet rest

/-- Embedding of `ExcelProcessor.validateFile`: resolve the three raw
sheet names (override or positional default), check presence, check
mandatory columns, then require at least one data row in Raw Sheet 1. -/
def validateFile (wb : Workbook) (st : Settings) : Except ValidationError Unit :=
  let names := wb.sheetNames
  let n1 := resolveSheetName st.rawSheet1Name names 0
  let n2 := resolveSheetName st.rawSheet2Name names 1
  let n3 := resolveSheetName st.rawSheet3Name names 2
  match wb.getSheet n1 with
  | none => Except.error (ValidationError.missingSheet 1 n1)
  | some s1 =>
    match wb.getSheet n2 with
    | none => Except.error (ValidationError.missingSheet 2 n2)
    | some s2 =>
      match wb.getSheet n3 with
      | none => Except.error (ValidationError.missingSheet 3 n3)
      | some s3 =>
        match validateSheetColumns n1 s1 sheet1Columns with
        | Except.error e => Except.error e
        | Except.ok _ =>
          match validateSheetColumns n2 s2 sheet2Columns with
          | Except.error e => Except.error e
          | Except.ok _ =>
            match validateSheetColumns n3 s3 sheet3Columns with
            | Except.error e => Except.error e
            | Except.ok _ =>
              if s1.rowCount < 2 then Except.error ValidationError.insufficientRows
              else Except.ok ()

/-- Resolved name of Raw Sheet 1 (override or first sheet name). -/
def sheetName1 (wb : Workbook) (st : Settings) : String :=
  resolveSheetName st.rawSheet1Name wb.sheetNames 0

/-- Resolved name of Raw Sheet 2 (override or second sheet name). -/
def sheetName2 (wb : Workbook) (st : Settings) : String :=
  resolveSheetName st.rawSheet2Name wb.sheetNames 1

/-- Resolved name of Raw Sheet 3 (override or third sheet name). -/
def sheetName3 (wb : Workbook) (st : Settings) : String :=
  resolveSheetName st.rawSheet3Name wb.sheetNames 2

/-- Condition: one of the three required sheets is absent. -/
def missingSheetCond (wb : Workbook) (st : Settings) : Prop :=
  wb.getSheet (sheetName1 wb st) = none ∨ wb.getSheet (sheetName2 wb st) = none ∨
    wb.getSheet (sheetName3 wb st) = none

/-- Condition: a required sheet is present but one of its mandatory
columns lies beyond its populated column range. -/
def missingColumnCond (wb : Workbook) (st : Settings) : Prop :=
  (∃ s, wb.getSheet (sheetName1 wb st) = some s ∧
    ∃ c ∈ sheet1Columns, s.endCol < decode_col c) ∨
  (∃ s, wb.getSheet (sheetName2 wb st) = some s ∧
    ∃ c ∈ sheet2Columns, s.endCol < decode_col c) ∨
  (∃ s, wb.getSheet (sheetName3 wb st) = some s ∧
    ∃ c ∈ sheet3Columns, s.endCol < decode_col c)

/-- Condition: the primary sheet is present but has fewer than two rows
(header plus at least one data row). -/
def insufficientRowsCond (wb : Workbook) (st : Settings) : Prop :=
  ∃ s, wb.getSheet (sheetName1 wb st) = some s ∧ s.rowCount < 2

theorem validateSheetColumns_error_iff (name : String) (sheet : Sheet)
    (cols : List String) :
    (∃ e, validateSheetColumns name sheet cols = Except.error e) ↔
      ∃ c ∈ cols, sheet.endCol < decode_col c := by
  induction cols with
  | nil => simp [validateSheetColumns]
  | cons c rest ih =>
    by_cases h : sheet.endCol < decode_col c
    · simp [validateSheetColumns, h]
    · simp [validateSheetColumns, h, ih]

theorem validateSheetColumns_ne_missingSheet (name : String) (sheet : Sheet)
    (cols : List String) (slot : Nat) (n : String) :
    validateSheetColumns name sheet cols ≠
      Except.error (ValidationError.missingSheet slot n) := by
  induction cols with
  | nil => simp [validateSheetColumns]
  | cons c rest ih =>
    by_cases h : sheet.endCol < decode_col c
    · simp [validateSheetColumns, h]
    · simpa [validateSheetColumns, h] using ih

/-- Claim C1: validation fails with an error if and only if one of the
three required sheets is absent, a mandatory column of a required sheet
lies beyond that sheet's populated column range, or the primary sheet has
fewer than two rows; otherwise validation succeeds. -/
theorem claim_C1_validateFile (wb : Workbook) (st : Settings) :
    (∃ e, validateFile wb st = Except.error e) ↔
      missingSheetCond wb st ∨ missingColumnCond wb st ∨
        insufficientRowsCond wb st := by
  simp only [missingSheetCond, missingColumnCond, insufficientRowsCond,
    sheetName1, sheetName2, sheetName3]
  rcases h1 : wb.getSheet (resolveSheetName st.rawSheet1Name wb.sheetNames 0) with _ | s1
  · have hval : validateFile wb st = Except.error
        (ValidationError.missingSheet 1 (resolveSheetName st.rawSheet1Name wb.sheetNames 0)) := by
      simp [validateFile, h1]
    simp [hval, h1]
  · rcases h2 : wb.getSheet (resolveSheetName st.rawSheet2Name wb.sheetNames 1) with _ | s2
    · have hval : validateFile wb st = Except.error
          (ValidationError.missingSheet 2 (resolveSheetName st.rawSheet2Name wb.sheetNames 1)) := by
        simp [validateFile, h1, h2]
      simp [hval, h1, h2]
    · rcases h3 : wb.getSheet (resolveSheetName st.rawSheet3Name wb.sheetNames 2) with _ | s3
      · have hval : validateFile wb st = Except.error
            (ValidationError.missingSheet 3 (resolveSheetName st.rawSheet3Name wb.sheetNames 2)) := by
          simp [validateFile, h1, h2, h3]
        simp [hval, h1, h2, h3]
      · rcases hv1 : validateSheetColumns (resolveSheetName st.rawSheet1Name wb.sheetNames 0) s1 sheet1Columns with e1 | u1
        · have hval : validateFile wb st = Except.error e1 := by
            simp [validateFile, h1, h2, h3, hv1]
          have hcols : ∃ c ∈ sheet1Columns, s1.endCol < decode_col c :=
            (validateSheetColumns_error_iff _ _ _).mp ⟨_, hv1⟩
          simp only [hval, h1, h2, h3]
          constructor
          · intro _
            exact Or.inr (Or.inl (Or.inl ⟨s1, rfl, hcols⟩))
          · intro _
            exact ⟨_, rfl⟩
        · rcases hv2 : validateSheetColumns (resolveSheetName st.rawSheet2Name wb.sheetNames 1) s2 sheet2Columns with e2 | u2
          · have hval : validateFile wb st = Except.error e2 := by
              simp [validateFile, h1, h2, h3, hv1, hv2]
            have hcols : ∃ c ∈ sheet2Columns, s2.endCol < decode_col c :=
              (validateSheetColumns_error_iff _ _ _).mp ⟨_, hv2⟩
            simp only [hval, h1, h2, h3]
            constructor
            · intro _
              exact Or.inr (Or.inl (Or.inr (Or.inl ⟨s2, rfl, hcols⟩)))
            · intro _
              exact ⟨_, rfl⟩
          · rcases hv3 : validateSheetColumns (resolveSheetName st.rawSheet3Name wb.sheetNames 2) s3 sheet3Columns with e3 | u3
            · have hval : validateFile wb st = Except.error e3 := by
                simp [validateFile, h1, h2, h3, hv1, hv2, hv3]
              have hcols : ∃ c ∈ sheet3Columns, s3.endCol < decode_col c :=
                (validateSheetColumns_error_iff _ _ _).mp ⟨_, hv3⟩
              simp only [hval, h1, h2, h3]
              constructor
              · intro _
                exact Or.inr (Or.inl (Or.inr (Or.inr ⟨s3, rfl, hcols⟩)))
              · intro _
                exact ⟨_, rfl⟩
            · have hc1 : ¬ ∃ c ∈ sheet1Columns, s1.endCol < decode_col c := by
                rw [← validateSheetColumns_error_iff
                  (resolveSheetName st.rawSheet1Name wb.sheetNames 0) s1 sheet1Columns]
                simp [hv1]
              have hc2 : ¬ ∃ c ∈ sheet2Columns, s2.endCol < decode_col c := by
                rw [← validateSheetColumns_error_iff
                  (resolveSheetName st.rawSheet2Name wb.sheetNames 1) s2 sheet2Columns]
                simp [hv2]
              have hc3 : ¬ ∃ c ∈ sheet3Columns, s3.endCol < decode_col c := by
                rw [← validateSheetColumns_error_iff
                  (resolveSheetName st.rawSheet3Name wb.sheetNames 2) s3 sheet3Columns]
                simp [hv3]
              by_cases hr : s1.rowCount < 2
              · have hval : validateFile wb st = Except.error ValidationError.insufficientRows := by
                  simp [validateFile, h1, h2, h3, hv1, hv2, hv3, hr]
                simp only [hval, h1, h2, h3]
                constructor
                · intro _
                  exact Or.inr (Or.inr ⟨s1, rfl, hr⟩)
                · intro _
                  exact ⟨_, rfl⟩
              · have hval : validateFile wb st = Except.ok () := by
                  simp [validateFile, h1, h2, h3, hv1, hv2, hv3, hr]
                simp only [hval, h1, h2, h3]
                constructor
                · rintro ⟨e, he⟩
                  simp at he
                · rintro ((h | h | h) | (⟨s, hs, hcs⟩ | ⟨s, hs, hcs⟩ | ⟨s, hs, hcs⟩) | ⟨s, hs, hrow⟩)
                  · simp at h
                  · simp at h
                  · simp at h
                  · cases hs; exact absurd hcs hc1
                  · cases hs; exact absurd hcs hc2
                  · cases hs; exact absurd hcs hc3
                  · cases hs; exact absurd hrow hr

/-- Witness for claim C1 at a concrete workbook and settings. -/
theorem claim_C1_validateFile_witness :
    (∃ e, validateFile
        (Workbook.mk [("S1", Sheet.mk 80 1), ("S2", Sheet.mk 50 4), ("S3", Sheet.mk 95 4)])
        (Settings.mk "" "" "") = Except.error e) ↔
      (missingSheetCond
          (Workbook.mk [("S1", Sheet.mk 80 1), ("S2", Sheet.mk 50 4), ("S3", Sheet.mk 95 4)])
          (Settings.mk "" "" "") ∨
        missingColumnCond
          (Workbook.mk [("S1", Sheet.mk 80 1), ("S2", Sheet.mk 50 4), ("S3", Sheet.mk 95 4)])
          (Settings.mk "" "" "") ∨
        insufficientRowsCond
          (Workbook.mk [("S1", Sheet.mk 80 1), ("S2", Sheet.mk 50 4), ("S3", Sheet.mk 95 4)])
          (Settings.mk "" "" "")) :=
  claim_C1_validateFile _ _


theorem getSheet_ne_none_of_mem (wb : Workbook) {n : String}
    (h : n ∈ wb.sheetNames) : wb.getSheet n ≠ none := by
  simp only [Workbook.sheetNames, List.mem_map] at h
  obtain ⟨p, hp, rfl⟩ := h
  simp only [Workbook.getSheet, ne_eq, Option.map_eq_none']
  rw [List.find?_eq_none]
  intro hall
  exact absurd (by simp) (hall p hp)

theorem getD_mem_of_lt {l : List String} {i : Nat} (d : String)
    (h : i < l.length) : l.getD i d ∈ l := by
  rw [List.getD_eq_getElem l d h]
  exact List.getElem_mem h

/-- Claim C9: with no overrides, the three required sheets default
positionally to the workbook's first three sheet names, so the presence
check passes for every workbook with at least three sheets (no
missing-sheet error can be raised); a missing-sheet error implies either
an explicit override naming an absent sheet, or a workbook with fewer than
three sheets. -/
theorem claim_C9_positional_defaults (wb : Workbook) (st : Settings) :
    (st.rawSheet1Name = "" → st.rawSheet2Name = "" → st.rawSheet3Name = "" →
      3 ≤ wb.sheets.length →
      [sheetName1 wb st, sheetName2 wb st, sheetName3 wb st] = wb.sheetNames.take 3
      ∧ wb.getSheet (sheetName1 wb st) ≠ none
      ∧ wb.getSheet (sheetName2 wb st) ≠ none
      ∧ wb.getSheet (sheetName3 wb st) ≠ none
      ∧ ∀ slot n, validateFile wb st ≠ Except.error (ValidationError.missingSheet slot n))
    ∧ (∀ slot n, validateFile wb st = Except.error (ValidationError.missingSheet slot n) →
        (((st.rawSheet1Name = n ∨ st.rawSheet2Name = n ∨ st.rawSheet3Name = n) ∧ n ≠ "") ∧
          wb.getSheet n = none) ∨ wb.sheets.length < 3) := by
  have hlen_eq : wb.sheetNames.length = wb.sheets.length := by
    simp [Workbook.sheetNames]
  constructor
  · intro e1 e2 e3 hlen
    have hlen' : 3 ≤ wb.sheetNames.length := by omega
    have hmem1 : sheetName1 wb st ∈ wb.sheetNames := by
      simp only [sheetName1, resolveSheetName, e1, if_pos]
      exact getD_mem_of_lt _ (by omega)
    have hmem2 : sheetName2 wb st ∈ wb.sheetNames := by
      simp only [sheetName2, resolveSheetName, e2, if_pos]
      exact getD_mem_of_lt _ (by omega)
    have hmem3 : sheetName3 wb st ∈ wb.sheetNames := by
      simp only [sheetName3, resolveSheetName, e3, if_pos]
      exact getD_mem_of_lt _ (by omega)
    have hg1 := getSheet_ne_none_of_mem wb hmem1
    have hg2 := getSheet_ne_none_of_mem wb hmem2
    have hg3 := getSheet_ne_none_of_mem wb hmem3
    refine ⟨?_, hg1, hg2, hg3, ?_⟩
    · rcases hnames : wb.sheetNames with _ | ⟨a, _ | ⟨b, _ | ⟨c, rest⟩⟩⟩ <;>
        rw [hnames] at hlen'
      · simp at hlen'
      · simp at hlen'
      · simp at hlen'
      · simp [sheetName1, sheetName2, sheetName3, resolveSheetName, e1, e2, e3, hnames]
    · intro slot n h
      rcases hs1 : wb.getSheet (sheetName1 wb st) with _ | s1
      · exact hg1 hs1
      rcases hs2 : wb.getSheet (sheetName2 wb st) with _ | s2
      · exact hg2 hs2
      rcases hs3 : wb.getSheet (sheetName3 wb st) with _ | s3
      · exact hg3 hs3
      rw [show sheetName1 wb st = resolveSheetName st.rawSheet1Name wb.sheetNames 0 from rfl] at hs1
      rw [show sheetName2 wb st = resolveSheetName st.rawSheet2Name wb.sheetNames 1 from rfl] at hs2
      rw [show sheetName3 wb st = resolveSheetName st.rawSheet3Name wb.sheetNames 2 from rfl] at hs3
      simp only [validateFile, hs1, hs2, hs3] at h
      rcases hv1 : validateSheetColumns (resolveSheetName st.rawSheet1Name wb.sheetNames 0) s1 sheet1Columns with e | u
      · rw [hv1] at h
        simp only [Except.error.injEq] at h
        exact validateSheetColumns_ne_missingSheet _ _ _ slot n (by rw [hv1, h])
      rcases hv2 : validateSheetColumns (resolveSheetName st.rawSheet2Name wb.sheetNames 1) s2 sheet2Columns with e | u
      · rw [hv1, hv2] at h
        simp only [Except.error.injEq] at h
        exact validateSheetColumns_ne_missingSheet _ _ _ slot n (by rw [hv2, h])
      rcases hv3 : validateSheetColumns (resolveSheetName st.rawSheet3Name wb.sheetNames 2) s3 sheet3Columns with e | u
      · rw [hv1, hv2, hv3] at h
        simp only [Except.error.injEq] at h
        exact validateSheetColumns_ne_missingSheet _ _ _ slot n (by rw [hv3, h])
      rw [hv1, hv2, hv3] at h
      by_cases hr : s1.rowCount < 2 <;> simp [hr] at h
  · intro slot n h
    rcases hs1 : wb.getSheet (resolveSheetName st.rawSheet1Name wb.sheetNames 0) with _ | s1
    · have hval : validateFile wb st = Except.error
          (ValidationError.missingSheet 1 (resolveSheetName st.rawSheet1Name wb.sheetNames 0)) := by
        simp [validateFile, hs1]
      rw [hval] at h
      simp only [Except.error.injEq, ValidationError.missingSheet.injEq] at h
      obtain ⟨-, hn⟩ := h
      by_cases ho : st.rawSheet1Name = ""
      · by_cases hl : wb.sheets.length < 3
        · exact Or.inr hl
        · exfalso
          have hi : (0 : Nat) < wb.sheetNames.length := by omega
          have : resolveSheetName st.rawSheet1Name wb.sheetNames 0 ∈ wb.sheetNames := by
            simp only [resolveSheetName, ho, if_pos]
            exact getD_mem_of_lt _ hi
          exact getSheet_ne_none_of_mem wb this hs1
      · refine Or.inl ⟨⟨Or.inl ?_, ?_⟩, ?_⟩
        · rw [← hn]; simp [resolveSheetName, ho]
        · rw [← hn]; simp [resolveSheetName, ho]
        · rw [← hn]; simpa [resolveSheetName, ho] using hs1
    rcases hs2 : wb.getSheet (resolveSheetName st.rawSheet2Name wb.sheetNames 1) with _ | s2
    · have hval : validateFile wb st = Except.error
          (ValidationError.missingSheet 2 (resolveSheetName st.rawSheet2Name wb.sheetNames 1)) := by
        simp [validateFile, hs1, hs2]
      rw [hval] at h
      simp only [Except.error.injEq, ValidationError.missingSheet.injEq] at h
      obtain ⟨-, hn⟩ := h
      by_cases ho : st.rawSheet2Name = ""
      · by_cases hl : wb.sheets.length < 3
        · exact Or.inr hl
        · exfalso
          have hi : (1 : Nat) < wb.sheetNames.length := by omega
          have : resolveSheetName st.rawSheet2Name wb.sheetNames 1 ∈ wb.sheetNames := by
            simp only [resolveSheetName, ho, if_pos]
            exact getD_mem_of_lt _ hi
          exact getSheet_ne_none_of_mem wb this hs2
      · refine Or.inl ⟨⟨Or.inr (Or.inl ?_), ?_⟩, ?_⟩
        · rw [← hn]; simp [resolveSheetName, ho]
        · rw [← hn]; simp [resolveSheetName, ho]
        · rw [← hn]; simpa [resolveSheetName, ho] using hs2
    rcases hs3 : wb.getSheet (resolveSheetName st.rawSheet3Name wb.sheetNames 2) with _ | s3
    · have hval : validateFile wb st = Except.error
          (ValidationError.missingSheet 3 (resolveSheetName st.rawSheet3Name wb.sheetNames 2)) := by
        simp [validateFile, hs1, hs2, hs3]
      rw [hval] at h
      simp only [Except.error.injEq, ValidationError.missingSheet.injEq] at h
      obtain ⟨-, hn⟩ := h
      by_cases ho : st.rawSheet3Name = ""
      · by_cases hl : wb.sheets.length < 3
        · exact Or.inr hl
        · exfalso
          have hi : (2 : Nat) < wb.sheetNames.length := by omega
          have : resolveSheetName st.rawSheet3Name wb.sheetNames 2 ∈ wb.sheetNames := by
            simp only [resolveSheetName, ho, if_pos]
            exact getD_mem_of_lt _ hi
          exact getSheet_ne_none_of_mem wb this hs3
      · refine Or.inl ⟨⟨Or.inr (Or.inr ?_), ?_⟩, ?_⟩
        · rw [← hn]; simp [resolveSheetName, ho]
        · rw [← hn]; simp [resolveSheetName, ho]
        · rw [← hn]; simpa [resolveSheetName, ho] using hs3
    exfalso
    simp only [validateFile, hs1, hs2, hs3] at h
    rcases hv1 : validateSheetColumns (resolveSheetName st.rawSheet1Name wb.sheetNames 0) s1 sheet1Columns with e | u
    · rw [hv1] at h
      simp only [Except.error.injEq] at h
      exact validateSheetColumns_ne_missingSheet _ _ _ slot n (by rw [hv1, h])
    rcases hv2 : validateSheetColumns (resolveSheetName st.rawSheet2Name wb.sheetNames 1) s2 sheet2Columns with e | u
    · rw [hv1, hv2] at h
      simp only [Except.error.injEq] at h
      exact validateSheetColumns_ne_missingSheet _ _ _ slot n (by rw [hv2, h])
    rcases hv3 : validateSheetColumns (resolveSheetName st.rawSheet3Name wb.sheetNames 2) s3 sheet3Columns with e | u
    · rw [hv1, hv2, hv3] at h
      simp only [Except.error.injEq] at h
      exact validateSheetColumns_ne_missingSheet _ _ _ slot n (by rw [hv3, h])
    rw [hv1, hv2, hv3] at h
    by_cases hr : s1.rowCount < 2 <;> simp [hr] at h

/-- Witness for claim C9 at a concrete three-sheet workbook with no
overrides. -/
theorem claim_C9_positional_defaults_witness :
    [sheetName1 (Workbook.mk [("A", Sheet.mk 90 3), ("B", Sheet.mk 90 3), ("C", Sheet.mk 95 3)]) (Settings.mk "" "" ""),
     sheetName2 (Workbook.mk [("A", Sheet.mk 90 3), ("B", Sheet.mk 90 3), ("C", Sheet.mk 95 3)]) (Settings.mk "" "" ""),
     sheetName3 (Workbook.mk [("A", Sheet.mk 90 3), ("B", Sheet.mk 90 3), ("C", Sheet.mk 95 3)]) (Settings.mk "" "" "")] =
      (Workbook.mk [("A", Sheet.mk 90 3), ("B", Sheet.mk 90 3), ("C", Sheet.mk 95 3)]).sheetNames.take 3
    ∧ (Workbook.mk [("A", Sheet.mk 90 3), ("B", Sheet.mk 90 3), ("C", Sheet.mk 95 3)]).getSheet
        (sheetName1 (Workbook.mk [("A", Sheet.mk 90 3), ("B", Sheet.mk 90 3), ("C", Sheet.mk 95 3)]) (Settings.mk "" "" "")) ≠ none :=
  have h := (claim_C9_positional_defaults
    (Workbook.mk [("A", Sheet.mk 90 3), ("B", Sheet.mk 90 3), ("C", Sheet.mk 95 3)])
    (Settings.mk "" "" "")).1 rfl rfl rfl (by decide)
  ⟨h.1, h.2.1⟩

/-!
Dashboard records and metrics (`ExcelProcessor.calculateDashboardMetrics`,
`refreshMetricsFromRecords`, `getRecordsByPreset`, `parseDate` in app.js).
-/

/-- JavaScript `Date` object, modelled by its epoch milliseconds. -/
structure JSDate where
  ms : Int
  deriving DecidableEq, Repr

/-- Days since the Unix epoch (floor division of the milliseconds). -/
def JSDate.epochDays (d : JSDate) : Int :=
  Int.fdiv d.ms 86400000

/-- Proleptic-Gregorian `(year, month 1..12, day)` from days since the
epoch; the standard civil-from-days conversion implemented by JavaScript
`Date` (UTC model). -/
def civilFromDays (z0 : Int) : Int × Int × Int :=
  let z := z0 + 719468
  let era := Int.fdiv z 146097
  let doe := z - era * 146097
  let yoe := (doe - doe / 1460 + doe / 36524 - doe / 146096) / 365
  let y := yoe + era * 400
  let doy := doe - (365 * yoe + yoe / 4 - yoe / 100)
  let mp := (5 * doy + 2) / 153
  let d := doy - (153 * mp + 2) / 5 + 1
  let m := mp + (if mp < 10 then 3 else -9)
  (y + (if m ≤ 2 then 1 else 0), m, d)

/-- JavaScript `Date.prototype.getFullYear` (UTC model). -/
def JSDate.getFullYear (d : JSDate) : Int :=
  (civilFromDays d.epochDays).1

/-- JavaScript `Date.prototype.getMonth`: zero-based month (UTC model). -/
def JSDate.getMonth (d : JSDate) : Int :=
  (civilFromDays d.epochDays).2.1 - 1

/-- Model of JavaScript `parseFloat` restricted to the integral values
occurring in the data: `none` models `NaN`; numeric-string parsing is
modelled by `String.toInt?`. -/
def parseFloatJS : JSVal → Option Int
  | JSVal.num n => some n
  | JSVal.str s => s.toInt?
  | _ => none

/-- Embedding of `ExcelProcessor.parseDate`, parameterised by the
implementation-defined string parsing of `new Date(string)` (`dp` returns
epoch milliseconds, `none` for an invalid date).  A falsy value gives
`null`; a number is an Excel serial date converted by
`new Date((value - 25569) * 86400 * 1000)`. -/
def parseDate (dp : String → Option Int) (v : JSVal) : Option JSDate :=
  if truthy v then
    match v with
    | JSVal.num n => some (JSDate.mk ((n - 25569) * 86400 * 1000))
    | _ => (dp (jsToString v)).map JSDate.mk
  else none

/-- Dashboard record built from one primary-sheet row. -/
structure RawRecord where
  deal : String
  product : String
  volume : Int
  date : Option JSDate
  location : String
  deriving DecidableEq, Repr

/-- Cell access `row[i]`: out-of-range access yields `undefined`. -/
def getCell (row : List JSVal) (i : Nat) : JSVal :=
  row.getD i JSVal.undefined

/-- Embedding of the record constructor inside `calculateDashboardMetrics`:
`{deal: normalize(row[5] || ''), product: normalize(row[12] || ''),
volume: parseFloat(row[16]) || 0, date: parseDate(row[38]),
location: normalize(row[29] || '')}`. -/
def toRecord (dp : String → Option Int) (row : List JSVal) : RawRecord :=
  { deal := normalize (jsOr (getCell row 5) (JSVal.str ""))
    product := normalize (jsOr (getCell row 12) (JSVal.str ""))
    volume := (parseFloatJS (getCell row 16)).getD 0
    date := parseDate dp (getCell row 38)
    location := normalize (jsOr (getCell row 29) (JSVal.str "")) }

/-- Embedding of the record pipeline in `calculateDashboardMetrics`:
`rawData.slice(1).filter(row => row && row.length > 0).map(...)
.filter(r => r.product && r.volume)` — the final filter keeps records
whose product and volume are both truthy. -/
def buildRawRecords (dp : String → Option Int) (rawData : List (List JSVal)) :
    List RawRecord :=
  (((rawData.drop 1).filter (fun row => decide (0 < row.length))).map
    (toRecord dp)).filter (fun r => !(r.product == "") && !(r.volume == 0))

/-- Aggregate metrics (`summaryMetrics`). -/
structure SummaryMetrics where
  totalDeals : Nat
  totalVolume : Int
  productDistribution : List (String × Int)
  deriving DecidableEq, Repr

/-- JavaScript object update
`dist[k] = (dist[k] || 0) + v` on an insertion-ordered key/value list. -/
def distAdd (dist : List (String × Int)) (k : String) (v : Int) :
    List (String × Int) :=
  match dist with
  | [] => [(k, v)]
  | (k0, v0) :: rest =>
    if k0 = k then (k0, v0 + v) :: rest else (k0, v0) :: distAdd rest k v

/-- JavaScript `Set.prototype.add` (insertion order, no duplicates). -/
def setAdd (s : List String) (x : String) : List String :=
  if x ∈ s then s else s ++ [x]

/-- One iteration of the `records.forEach` accumulation in
`refreshMetricsFromRecords`: unique deals, total volume, product
distribution. -/
def metricsStep (acc : List String × Int × List (String × Int))
    (r : RawRecord) : List String × Int × List (String × Int) :=
  (if r.deal == "" then acc.1 else setAdd acc.1 r.deal,
   acc.2.1 + r.volume,
   distAdd acc.2.2 r.product r.volume)

/-- Embedding of the metric accumulation in `refreshMetricsFromRecords`
(the date-preset filtering is applied by the caller). -/
def computeMetrics (records : List RawRecord) : SummaryMetrics :=
  let res := records.foldl metricsStep ([], 0, [])
  { totalDeals := res.1.length
    totalVolume := res.2.1
    productDistribution := res.2.2 }

/-- Primary-sheet row with a non-empty product and a quantity cell equal
to `0`: the claim requires it to be included in the metrics, the code
drops it (`r.volume` is falsy). -/
def zeroVolumeRow : List JSVal :=
  List.replicate 12 JSVal.undefined ++ [JSVal.str "CRUDE"] ++
    List.replicate 3 JSVal.undefined ++ [JSVal.num 0]

/-- Counterexample to claim C3 as stated: a data row with non-empty
product `"CRUDE"` and quantity `0` (zero, hence "zero or positive")
produces no dashboard record at all — the row is silently dropped from
the aggregate metrics. -/
theorem claim_C3_counterexample :
    0 < zeroVolumeRow.length
    ∧ (toRecord (fun _ => none) zeroVolumeRow).product = "CRUDE"
    ∧ (toRecord (fun _ => none) zeroVolumeRow).volume = 0
    ∧ buildRawRecords (fun _ => none) [[JSVal.str "header"], zeroVolumeRow] = []
    ∧ computeMetrics (buildRawRecords (fun _ => none)
        [[JSVal.str "header"], zeroVolumeRow]) =
        SummaryMetrics.mk 0 0 [] := by
  refine ⟨by decide, by decide, by decide, by decide, by decide⟩

theorem metricsFold_volume (records : List RawRecord)
    (acc : List String × Int × List (String × Int)) :
    (records.foldl metricsStep acc).2.1 =
      acc.2.1 + (records.map (fun r => r.volume)).sum := by
  induction records generalizing acc with
  | nil => simp
  | cons r rest ih =>
    simp only [List.foldl_cons, List.map_cons, List.sum_cons, ih, metricsStep]
    ring

theorem mem_setAdd {s : List String} {x d : String} :
    d ∈ setAdd s x ↔ d ∈ s ∨ d = x := by
  by_cases h : x ∈ s
  · simp only [setAdd, if_pos h]
    constructor
    · exact Or.inl
    · rintro (hd | rfl) <;> [exact hd; exact h]
  · simp [setAdd, if_neg h]

theorem metricsFold_deals (records : List RawRecord)
    (acc : List String × Int × List (String × Int)) (d : String) :
    (d ∈ (records.foldl metricsStep acc).1 ↔
      d ∈ acc.1 ∨ ∃ r ∈ records, r.deal = d ∧ d ≠ "") := by
  induction records generalizing acc with
  | nil => simp
  | cons r rest ih =>
    rw [List.foldl_cons, ih]
    by_cases h : r.deal = ""
    · rw [show (metricsStep acc r).1 = acc.1 from by
        simp [metricsStep, h]]
      constructor
      · rintro (hd | ⟨r', h1, h2, h3⟩)
        · exact Or.inl hd
        · exact Or.inr ⟨r', List.mem_cons_of_mem _ h1, h2, h3⟩
      · rintro (hd | ⟨r', h1, h2, h3⟩)
        · exact Or.inl hd
        · rcases List.mem_cons.mp h1 with rfl | h1
          · exact absurd (by rw [← h2, h]) h3
          · exact Or.inr ⟨r', h1, h2, h3⟩
    · rw [show (metricsStep acc r).1 = setAdd acc.1 r.deal from by
        simp [metricsStep, h]]
      rw [mem_setAdd]
      constructor
      · rintro ((hd | hd) | ⟨r', h1, h2, h3⟩)
        · exact Or.inl hd
        · exact Or.inr ⟨r, List.mem_cons_self r rest, hd.symm, fun he => h (hd ▸ he)⟩
        · exact Or.inr ⟨r', List.mem_cons_of_mem _ h1, h2, h3⟩
      · rintro (hd | ⟨r', h1, h2, h3⟩)
        · exact Or.inl (Or.inl hd)
        · rcases List.mem_cons.mp h1 with rfl | h1
          · exact Or.inl (Or.inr h2.symm)
          · exact Or.inr ⟨r', h1, h2, h3⟩

/-- Claim C3, amended: a primary-sheet data row is included in the
aggregate dashboard metrics if and only if it has a non-empty (normalized)
product and a quantity parsing to a nonzero number — rows with zero or
unparseable quantity are excluded along with product-less rows; the
metrics then aggregate every included record (total volume sums all
volumes, every non-empty deal id is counted). -/
theorem claim_C3_amended_metric_inclusion :
    (∀ (dp : String → Option Int) (rawData : List (List JSVal)) (row : List JSVal),
      row ∈ rawData.drop 1 → 0 < row.length →
      (toRecord dp row ∈ buildRawRecords dp rawData ↔
        ((toRecord dp row).product ≠ "" ∧ (toRecord dp row).volume ≠ 0)))
    ∧ (∀ records : List RawRecord,
        (computeMetrics records).totalVolume = (records.map (fun r => r.volume)).sum)
    ∧ (∀ (records : List RawRecord) (d : String),
        ((computeMetrics records).totalDeals = 0 ∧ records = []) ∨
        (d ∈ (records.foldl metricsStep ([], 0, [])).1 ↔
          ∃ r ∈ records, r.deal = d ∧ d ≠ "")) := by
  refine ⟨?_, ?_, ?_⟩
  · intro dp rawData row hrow hlen
    unfold buildRawRecords
    rw [List.mem_filter]
    constructor
    · rintro ⟨-, hpred⟩
      simpa using hpred
    · rintro ⟨hp, hv⟩
      refine ⟨List.mem_map_of_mem _ (List.mem_filter.mpr ⟨hrow, by simpa using hlen⟩), ?_⟩
      simp [hp, hv]
  · intro records
    simpa [computeMetrics] using metricsFold_volume records ([], 0, [])
  · intro records d
    right
    simpa using metricsFold_deals records ([], 0, []) d

/-- Witness for the amended claim C3 at a concrete one-row sheet. -/
theorem claim_C3_amended_metric_inclusion_witness :
    (toRecord (fun _ => none) (List.replicate 12 JSVal.undefined ++
        [JSVal.str "CRUDE"] ++ List.replicate 3 JSVal.undefined ++ [JSVal.num 250]) ∈
      buildRawRecords (fun _ => none) [[JSVal.str "header"],
        List.replicate 12 JSVal.undefined ++ [JSVal.str "CRUDE"] ++
          List.replicate 3 JSVal.undefined ++ [JSVal.num 250]] ↔
      ((toRecord (fun _ => none) (List.replicate 12 JSVal.undefined ++
          [JSVal.str "CRUDE"] ++ List.replicate 3 JSVal.undefined ++ [JSVal.num 250])).product ≠ ""
        ∧ (toRecord (fun _ => none) (List.replicate 12 JSVal.undefined ++
          [JSVal.str "CRUDE"] ++ List.replicate 3 JSVal.undefined ++ [JSVal.num 250])).volume ≠ 0)) :=
  claim_C3_amended_metric_inclusion.1 (fun _ => none) _ _ (by decide) (by decide)

/-!
Date-preset filtering (`ExcelProcessor.getRecordsByPreset`,
`ExcelProcessor.getQuarter` in app.js).
-/

/-- Embedding of `ExcelProcessor.getQuarter`:
`Math.floor(date.getMonth() / 3) + 1`. -/
def getQuarter (d : JSDate) : Int :=
  d.getMonth / 3 + 1

/-- Embedding of `ExcelProcessor.getRecordsByPreset`: `''` and `'ALL'`
return every record; `'MTD'`, `'YTD'`, `'QTD'` filter by the record's
parsed date against the current date (`now`), excluding records with a
`null` date; any other preset falls through to every record. -/
def getRecordsByPreset (now : JSDate) (records : List RawRecord)
    (preset : String) : List RawRecord :=
  if preset = "" ∨ preset = "ALL" then records
  else if preset = "MTD" then
    records.filter (fun r =>
      match r.date with
      | some d => d.getFullYear == now.getFullYear && d.getMonth == now.getMonth
      | none => false)
  else if preset = "YTD" then
    records.filter (fun r =>
      match r.date with
      | some d => d.getFullYear == now.getFullYear
      | none => false)
  else if preset = "QTD" then
    records.filter (fun r =>
      match r.date with
      | some d => d.getFullYear == now.getFullYear && getQuarter d == getQuarter now
      | none => false)
  else records

/-- Claim C10: every preset yields a subsequence of the records (nothing
added, duplicated or reordered); the empty, `'ALL'` and unrecognized
presets return all records unchanged; and records whose date failed to
parse (`date = null`) are excluded from the `'MTD'`, `'YTD'` and `'QTD'`
results. -/
theorem claim_C10_getRecordsByPreset :
    (∀ (now : JSDate) (records : List RawRecord) (preset : String),
      (getRecordsByPreset now records preset).Sublist records)
    ∧ (∀ (now : JSDate) (records : List RawRecord) (preset : String),
        (preset = "" ∨ preset = "ALL" ∨
          (preset ≠ "MTD" ∧ preset ≠ "YTD" ∧ preset ≠ "QTD")) →
        getRecordsByPreset now records preset = records)
    ∧ (∀ (now : JSDate) (records : List RawRecord) (preset : String) (r : RawRecord),
        (preset = "MTD" ∨ preset = "YTD" ∨ preset = "QTD") →
        r.date = none → r ∉ getRecordsByPreset now records preset) := by
  refine ⟨?_, ?_, ?_⟩
  · intro now records preset
    unfold getRecordsByPreset
    split
    · exact List.Sublist.refl records
    · split
      · exact List.filter_sublist records
      · split
        · exact List.filter_sublist records
        · split
          · exact List.filter_sublist records
          · exact List.Sublist.refl records
  · intro now records preset h
    unfold getRecordsByPreset
    rcases h with rfl | rfl | ⟨h1, h2, h3⟩
    · rw [if_pos (Or.inl rfl)]
    · rw [if_pos (Or.inr rfl)]
    · by_cases h0 : preset = "" ∨ preset = "ALL"
      · rw [if_pos h0]
      · rw [if_neg h0, if_neg h1, if_neg h2, if_neg h3]
  · intro now records preset r h hdate hmem
    unfold getRecordsByPreset at hmem
    rcases h with rfl | rfl | rfl
    · rw [if_neg (by decide), if_pos rfl] at hmem
      simp [List.mem_filter, hdate] at hmem
    · rw [if_neg (by decide), if_neg (by decide), if_pos rfl] at hmem
      simp [List.mem_filter, hdate] at hmem
    · rw [if_neg (by decide), if_neg (by decide), if_neg (by decide), if_pos rfl] at hmem
      simp [List.mem_filter, hdate] at hmem

/-- Witness for claim C10: a record with an unparseable date disappears
from the month-to-date view, and an unrecognized preset returns the
records unchanged. -/
theorem claim_C10_getRecordsByPreset_witness :
    RawRecord.mk "D1" "CRUDE" 5 none "" ∉
      getRecordsByPreset (JSDate.mk 0) [RawRecord.mk "D1" "CRUDE" 5 none ""] "MTD"
    ∧ getRecordsByPreset (JSDate.mk 0) [RawRecord.mk "D1" "CRUDE" 5 none ""] "XYZ" =
        [RawRecord.mk "D1" "CRUDE" 5 none ""] :=
  ⟨claim_C10_getRecordsByPreset.2.2 (JSDate.mk 0) _ "MTD"
      (RawRecord.mk "D1" "CRUDE" 5 none "") (Or.inl rfl) rfl,
   claim_C10_getRecordsByPreset.2.1 (JSDate.mk 0) _ "XYZ"
      (Or.inr (Or.inr (by decide)))⟩


/-!
Deal-comparison dashboard (`DealComparisonDashboard` in app.js): the
variance/anomaly selection and the unregistered-cost aggregation.
-/

/-- One per-cost-type comparison of a reconciliation deal
(`deal.costs[i]`). -/
structure CostComparison where
  cost_type : String
  difference : Int
  status : String
  deriving DecidableEq, Repr

/-- One reconciliation deal as delivered in `analysisData.deals`. -/
structure CDeal where
  deal_id : String
  formatted_quantity : Int
  comparison_quantity : Int
  difference : Int
  costs : List CostComparison
  deriving DecidableEq, Repr

/-- Active drill-down filters (`this.filters`), as insertion-ordered
lists of distinct keys. -/
structure Filters where
  deals : List String
  costTypes : List String
  deriving DecidableEq, Repr

/-- First stage of `getFilteredDeals`:
`deals.filter((deal) => (deal.difference || 0) > 0)`. -/
def positiveDeals (deals : List CDeal) : List CDeal :=
  deals.filter (fun d => decide (0 < d.difference))

/-- Second stage of `getFilteredDeals`: restrict to the drill-down deal
filter when one is active. -/
def dealFilterStage (filters : Filters) (deals : List CDeal) : List CDeal :=
  if filters.deals ≠ [] then
    (positiveDeals deals).filter (fun d => decide (d.deal_id ∈ filters.deals))
  else positiveDeals deals

/-- Cost restriction applied per deal when a cost-type filter is active:
`{...deal, costs: deal.costs.filter((cost) => filters.costTypes.has(cost.cost_type))}`. -/
def restrictCosts (filters : Filters) (d : CDeal) : CDeal :=
  { d with costs := d.costs.filter (fun c => decide (c.cost_type ∈ filters.costTypes)) }

/-- Embedding of `DealComparisonDashboard.getFilteredDeals`. -/
def getFilteredDeals (filters : Filters) (deals : List CDeal) : List CDeal :=
  if filters.costTypes ≠ [] then
    ((dealFilterStage filters deals).map (restrictCosts filters)).filter
      (fun d => decide (0 < d.costs.length))
  else dealFilterStage filters deals

/-- Descending comparison on deals realised by the comparator
`(a, b) => b.difference - a.difference`. -/
def diffGE (a b : CDeal) : Prop :=
  b.difference ≤ a.difference

instance : DecidableRel diffGE :=
  fun a b => inferInstanceAs (Decidable (b.difference ≤ a.difference))

instance : IsTotal CDeal diffGE :=
  ⟨fun a b => le_total b.difference a.difference⟩

instance : IsTrans CDeal diffGE :=
  ⟨fun _ _ _ hab hbc => le_trans hbc hab⟩

/-- Embedding of the variance-chart selection in `renderVarianceChart`:
`filteredDeals.slice().sort((a, b) => b.difference - a.difference).slice(0, 20)`. -/
def varianceTopDeals (filteredDeals : List CDeal) : List CDeal :=
  (filteredDeals.insertionSort diffGE).take 20

theorem mem_dealFilterStage_pos (filters : Filters) (deals : List CDeal)
    {d : CDeal} (h : d ∈ dealFilterStage filters deals) : 0 < d.difference := by
  unfold dealFilterStage positiveDeals at h
  split at h
  · have h1 := (List.mem_filter.mp h).1
    simpa using (List.mem_filter.mp h1).2
  · simpa using (List.mem_filter.mp h).2

theorem mem_getFilteredDeals_pos (filters : Filters) (deals : List CDeal)
    {d : CDeal} (h : d ∈ getFilteredDeals filters deals) : 0 < d.difference := by
  unfold getFilteredDeals at h
  split at h
  · obtain ⟨hmem, -⟩ := List.mem_filter.mp h
    obtain ⟨d', hd', rfl⟩ := List.mem_map.mp hmem
    have hpos := mem_dealFilterStage_pos filters deals hd'
    simpa [restrictCosts] using hpos
  · exact mem_dealFilterStage_pos filters deals h

/-- Claim C5: the variance/anomaly selection contains only deals with a
strictly positive difference (deals with zero or negative difference never
appear), is ordered by descending difference, and has at most 20
entries. -/
theorem claim_C5_variance_selection (filters : Filters) (deals : List CDeal) :
    (∀ d ∈ varianceTopDeals (getFilteredDeals filters deals), 0 < d.difference)
    ∧ List.Sorted diffGE (varianceTopDeals (getFilteredDeals filters deals))
    ∧ (varianceTopDeals (getFilteredDeals filters deals)).length ≤ 20 := by
  refine ⟨?_, ?_, ?_⟩
  · intro d hd
    have hmem : d ∈ (getFilteredDeals filters deals).insertionSort diffGE :=
      List.mem_of_mem_take hd
    rw [List.mem_insertionSort] at hmem
    exact mem_getFilteredDeals_pos filters deals hmem
  · exact List.Pairwise.sublist
      (List.take_sublist 20 ((getFilteredDeals filters deals).insertionSort diffGE))
      (List.sorted_insertionSort diffGE (getFilteredDeals filters deals))
  · exact List.length_take_le 20 _

/-- Witness for claim C5 at a concrete deal list (one positive, one zero,
one negative difference). -/
theorem claim_C5_variance_selection_witness :
    0 < (CDeal.mk "D1" 1000 800 200 []).difference
    ∧ List.Sorted diffGE (varianceTopDeals (getFilteredDeals (Filters.mk [] [])
        [CDeal.mk "D2" 500 500 0 [], CDeal.mk "D1" 1000 800 200 [],
         CDeal.mk "D3" 100 400 (-300) []])) :=
  ⟨(claim_C5_variance_selection (Filters.mk [] [])
      [CDeal.mk "D2" 500 500 0 [], CDeal.mk "D1" 1000 800 200 [],
       CDeal.mk "D3" 100 400 (-300) []]).1 (CDeal.mk "D1" 1000 800 200 [])
      (by decide),
   (claim_C5_variance_selection (Filters.mk [] [])
      [CDeal.mk "D2" 500 500 0 [], CDeal.mk "D1" 1000 800 200 [],
       CDeal.mk "D3" 100 400 (-300) []]).2.1⟩

/-- Accumulated entry of the unregistered-cost registry
(`{cost_type, impact, deal_count, deals}` in `aggregateUnregistered`);
`deals` is the JavaScript `Set` as an insertion-ordered duplicate-free
list. -/
structure UEntry where
  cost_type : String
  impact : Int
  deal_count : Nat
  deals : List String
  deriving DecidableEq, Repr

/-- Mutation performed on an entry for one Unregistered cost line:
`current.impact += Math.abs(cost.difference || 0);
current.deals.add(deal.deal_id); current.deal_count = current.deals.size`. -/
def applyCost (e : UEntry) (dealId : String) (diff : Int) : UEntry :=
  let newDeals := setAdd e.deals dealId
  { e with impact := e.impact + |diff|, deals := newDeals,
           deal_count := newDeals.length }

/-- Registry update `registry.set(cost_type, current)` where `current` is
the existing entry (`registry.get`) or the fresh default; a JavaScript
`Map` keeps the position of an existing key and appends a new one. -/
def regUpdate (reg : List UEntry) (ct : String) (dealId : String)
    (diff : Int) : List UEntry :=
  match reg with
  | [] => [applyCost (UEntry.mk ct 0 0 []) dealId diff]
  | e :: rest =>
    if e.cost_type = ct then applyCost e dealId diff :: rest
    else e :: regUpdate rest ct dealId diff

/-- One Unregistered cost occurrence: deal id, cost type, difference. -/
abbrev UPair := String × String × Int

/-- Cost type of an occurrence. -/
def pairKey (p : UPair) : String := p.2.1

/-- Deal id of an occurrence. -/
def pairDeal (p : UPair) : String := p.1

/-- Absolute difference of an occurrence (`Math.abs(cost.difference || 0)`). -/
def pairImpact (p : UPair) : Int := |p.2.2|

/-- Unregistered cost occurrences of a deal list, in iteration order of
the nested `deals.forEach`/`costs.forEach` loops. -/
def unregPairs (deals : List CDeal) : List UPair :=
  deals.flatMap (fun d =>
    (d.costs.filter (fun c => c.status == "Unregistered")).map
      (fun c => (d.deal_id, c.cost_type, c.difference)))

/-- One loop iteration of `aggregateUnregistered`. -/
def regStep (reg : List UEntry) (p : UPair) : List UEntry :=
  regUpdate reg (pairKey p) (pairDeal p) p.2.2

/-- Registry contents after the loops of `aggregateUnregistered`. -/
def buildRegistry (deals : List CDeal) : List UEntry :=
  (unregPairs deals).foldl regStep []

/-- Descending order on entries realised by the comparator
`(a, b) => b.impact - a.impact`. -/
def impactGE (a b : UEntry) : Prop :=
  b.impact ≤ a.impact

instance : DecidableRel impactGE :=
  fun a b => inferInstanceAs (Decidable (b.impact ≤ a.impact))

instance : IsTotal UEntry impactGE :=
  ⟨fun a b => le_total b.impact a.impact⟩

instance : IsTrans UEntry impactGE :=
  ⟨fun _ _ _ hab hbc => le_trans hbc hab⟩

/-- Embedding of `DealComparisonDashboard.aggregateUnregistered`: build
the per-cost-type registry, convert to an array, sort by descending
impact. -/
def aggregateUnregistered (deals : List CDeal) : List UEntry :=
  (buildRegistry deals).insertionSort impactGE

/-- Registry lookup `registry.get(ct)` (by entry key). -/
def regFind (reg : List UEntry) (ct : String) : Option UEntry :=
  reg.find? (fun e => e.cost_type == ct)

/-- Keys of the registry in insertion order. -/
def regKeys (reg : List UEntry) : List String :=
  reg.map (fun e => e.cost_type)

/-- Occurrences of cost type `ct` among `pairs`, in order. -/
def pairsFor (pairs : List UPair) (ct : String) : List UPair :=
  pairs.filter (fun p => pairKey p == ct)

/-- Replay of `applyCost` over a list of occurrences. -/
def applyAll (e : UEntry) (ps : List UPair) : UEntry :=
  ps.foldl (fun acc p => applyCost acc (pairDeal p) p.2.2) e

theorem applyCost_cost_type (e : UEntry) (dealId : String) (diff : Int) :
    (applyCost e dealId diff).cost_type = e.cost_type := rfl

theorem regKeys_regUpdate (reg : List UEntry) (ct dealId : String) (diff : Int) :
    regKeys (regUpdate reg ct dealId diff) = setAdd (regKeys reg) ct := by
  induction reg with
  | nil => simp [regUpdate, regKeys, setAdd, applyCost]
  | cons e rest ih =>
    by_cases h : e.cost_type = ct
    · subst h
      simp [regUpdate, regKeys, setAdd, applyCost]
    · rw [show regUpdate (e :: rest) ct dealId diff =
          e :: regUpdate rest ct dealId diff from by simp [regUpdate, h]]
      rw [show regKeys (e :: regUpdate rest ct dealId diff) =
          e.cost_type :: regKeys (regUpdate rest ct dealId diff) from rfl]
      rw [ih]
      unfold setAdd
      by_cases hmem : ct ∈ regKeys rest
      · rw [if_pos hmem,
          if_pos (show ct ∈ regKeys (e :: rest) from List.mem_cons_of_mem _ hmem)]
        rfl
      · have hnotc : ct ∉ regKeys (e :: rest) := by
          rw [show regKeys (e :: rest) = e.cost_type :: regKeys rest from rfl]
          simp only [List.mem_cons, not_or]
          exact ⟨fun hc => h hc.symm, hmem⟩
        rw [if_neg hmem, if_neg hnotc]
        rfl

theorem setFold_mem (ids : List String) (acc : List String) (d : String) :
    d ∈ ids.foldl setAdd acc ↔ d ∈ acc ∨ d ∈ ids := by
  induction ids generalizing acc with
  | nil => simp
  | cons i rest ih =>
    rw [List.foldl_cons, ih, mem_setAdd]
    constructor
    · rintro ((h | rfl) | h)
      · exact Or.inl h
      · exact Or.inr (List.mem_cons_self _ _)
      · exact Or.inr (List.mem_cons_of_mem _ h)
    · rintro (h | h)
      · exact Or.inl (Or.inl h)
      · rcases List.mem_cons.mp h with rfl | h
        · exact Or.inl (Or.inr rfl)
        · exact Or.inr h

theorem setFold_nodup (ids : List String) (acc : List String)
    (h : acc.Nodup) : (ids.foldl setAdd acc).Nodup := by
  induction ids generalizing acc with
  | nil => simpa
  | cons i rest ih =>
    rw [List.foldl_cons]
    refine ih _ ?_
    unfold setAdd
    split
    · exact h
    · rename_i hnot
      rw [List.nodup_append]
      exact ⟨h, List.nodup_singleton i,
        fun a ha hai => hnot ((List.mem_singleton.mp hai) ▸ ha)⟩

theorem regKeys_fold (pairs : List UPair) (reg : List UEntry) :
    regKeys (pairs.foldl regStep reg) = (pairs.map pairKey).foldl setAdd (regKeys reg) := by
  induction pairs generalizing reg with
  | nil => rfl
  | cons p rest ih =>
    rw [List.foldl_cons, ih, List.map_cons, List.foldl_cons]
    rw [show regKeys (regStep reg p) = setAdd (regKeys reg) (pairKey p) from
      regKeys_regUpdate reg (pairKey p) (pairDeal p) p.2.2]

theorem regFind_regUpdate (reg : List UEntry) (ct dealId : String)
    (diff : Int) (ct' : String) :
    regFind (regUpdate reg ct dealId diff) ct' =
      if ct' = ct then
        some (applyCost ((regFind reg ct).getD (UEntry.mk ct 0 0 [])) dealId diff)
      else regFind reg ct' := by
  induction reg with
  | nil =>
    by_cases hc : ct' = ct
    · subst hc
      simp [regFind, regUpdate, List.find?, applyCost]
    · have hb : (ct == ct') = false := by
        simp only [beq_eq_false_iff_ne, ne_eq]
        exact fun hx => hc hx.symm
      simp [regFind, regUpdate, List.find?, applyCost, hb, hc]
  | cons e rest ih =>
    by_cases h : e.cost_type = ct
    · subst h
      rw [show regUpdate (e :: rest) e.cost_type dealId diff =
          applyCost e dealId diff :: rest from by simp [regUpdate]]
      by_cases hc : ct' = e.cost_type
      · subst hc
        simp [regFind, List.find?, applyCost]
      · have h1 : ((applyCost e dealId diff).cost_type == ct') = false := by
          simp [applyCost]
          exact fun hx => hc hx.symm
        have h2 : (e.cost_type == ct') = false := by
          simp
          exact fun hx => hc hx.symm
        simp only [regFind, List.find?, h1, h2, cond_false, if_neg hc]
    · rw [show regUpdate (e :: rest) ct dealId diff =
          e :: regUpdate rest ct dealId diff from by simp [regUpdate, h]]
      by_cases he : e.cost_type = ct'
      · have hc : ¬ ct' = ct := fun hx => h (he.trans hx)
        simp only [regFind, List.find?, he, beq_self_eq_true, cond_true, if_neg hc]
      · have h1 : (e.cost_type == ct') = false := by simpa using he
        have h2 : (e.cost_type == ct) = false := by simpa using h
        simp only [regFind, List.find?, h1, cond_false]
        rw [show List.find? (fun x => x.cost_type == ct') (regUpdate rest ct dealId diff) =
            regFind (regUpdate rest ct dealId diff) ct' from rfl, ih]
        by_cases hc : ct' = ct
        · rw [if_pos hc, if_pos hc]
          simp only [regFind, List.find?, h2]
        · rw [if_neg hc, if_neg hc]
          rfl

theorem regFind_fold (pairs : List UPair) (reg : List UEntry) (ct : String) :
    regFind (pairs.foldl regStep reg) ct =
      match regFind reg ct with
      | some e => some (applyAll e (pairsFor pairs ct))
      | none =>
        if ct ∈ pairs.map pairKey then
          some (applyAll (UEntry.mk ct 0 0 []) (pairsFor pairs ct))
        else none := by
  induction pairs generalizing reg with
  | nil =>
    rcases hf : regFind reg ct with _ | e <;> simp [hf, pairsFor, applyAll]
  | cons p rest ih =>
    rw [List.foldl_cons, ih]
    have hstep : regFind (regStep reg p) ct =
        if ct = pairKey p then
          some (applyCost ((regFind reg (pairKey p)).getD (UEntry.mk (pairKey p) 0 0 []))
            (pairDeal p) p.2.2)
        else regFind reg ct :=
      regFind_regUpdate reg (pairKey p) (pairDeal p) p.2.2 ct
    by_cases hk : ct = pairKey p
    · have hfor : pairsFor (p :: rest) ct = p :: pairsFor rest ct := by
        simp [pairsFor, List.filter_cons, hk.symm]
      have hkey : ct ∈ (p :: rest).map pairKey := by
        rw [List.map_cons]
        exact hk ▸ List.mem_cons_self _ _
      rw [hstep, if_pos hk, hfor]
      rcases hf : regFind reg ct with _ | e
      · rw [hk] at hf
        rw [hf]
        simp only [Option.getD_some, Option.getD_none, if_pos hkey]
        rw [show applyAll (UEntry.mk ct 0 0 []) (p :: pairsFor rest ct) =
            applyAll (applyCost (UEntry.mk ct 0 0 []) (pairDeal p) p.2.2) (pairsFor rest ct)
          from rfl]
        rw [hk]
      · rw [hk] at hf
        rw [hf]
        simp only [Option.getD_some]
        rw [show applyAll e (p :: pairsFor rest ct) =
            applyAll (applyCost e (pairDeal p) p.2.2) (pairsFor rest ct) from rfl]
    · have hfor : pairsFor (p :: rest) ct = pairsFor rest ct := by
        have : (pairKey p == ct) = false := by
          simpa using fun hx => hk hx.symm
        simp [pairsFor, List.filter_cons, this]
      have hkey : (ct ∈ (p :: rest).map pairKey) ↔ (ct ∈ rest.map pairKey) := by
        rw [List.map_cons, List.mem_cons]
        constructor
        · rintro (hx | hx)
          · exact absurd hx.symm (by simpa using fun hy => hk hy.symm)
          · exact hx
        · exact Or.inr
      rw [hstep, if_neg hk, hfor]
      rcases hf : regFind reg ct with _ | e
      · simp only [hkey]
      · rfl

theorem applyAll_cost_type (ps : List UPair) (e : UEntry) :
    (applyAll e ps).cost_type = e.cost_type := by
  induction ps generalizing e with
  | nil => rfl
  | cons p rest ih => rw [applyAll, List.foldl_cons, ← applyAll, ih, applyCost_cost_type]

theorem applyAll_impact (ps : List UPair) (e : UEntry) :
    (applyAll e ps).impact = e.impact + (ps.map pairImpact).sum := by
  induction ps generalizing e with
  | nil => simp [applyAll]
  | cons p rest ih =>
    rw [applyAll, List.foldl_cons, ← applyAll, ih]
    simp only [applyCost, List.map_cons, List.sum_cons, pairImpact]
    ring

theorem applyAll_deals (ps : List UPair) (e : UEntry) :
    (applyAll e ps).deals = (ps.map pairDeal).foldl setAdd e.deals := by
  induction ps generalizing e with
  | nil => rfl
  | cons p rest ih =>
    rw [applyAll, List.foldl_cons, ← applyAll, ih]
    rfl

theorem applyAll_count (ps : List UPair) (e : UEntry)
    (h : e.deal_count = e.deals.length) :
    (applyAll e ps).deal_count = (applyAll e ps).deals.length := by
  induction ps generalizing e with
  | nil => simpa [applyAll] using h
  | cons p rest ih =>
    rw [applyAll, List.foldl_cons, ← applyAll]
    exact ih _ rfl

theorem find_eq_of_mem (reg : List UEntry) (h : (regKeys reg).Nodup)
    {e : UEntry} (he : e ∈ reg) : regFind reg e.cost_type = some e := by
  induction reg with
  | nil => cases he
  | cons e0 rest ih =>
    rw [show regKeys (e0 :: rest) = e0.cost_type :: regKeys rest from rfl,
      List.nodup_cons] at h
    rcases List.mem_cons.mp he with rfl | he'
    · simp [regFind, List.find?]
    · have hne : (e0.cost_type == e.cost_type) = false := by
        simp only [beq_eq_false_iff_ne, ne_eq]
        intro hx
        exact h.1 (hx ▸ List.mem_map_of_mem (fun x => x.cost_type) he')
      simp only [regFind, List.find?, hne, cond_false]
      exact ih h.2 he'

theorem mem_unregKeys_iff (deals : List CDeal) (ct : String) :
    ct ∈ (unregPairs deals).map pairKey ↔
      ∃ d ∈ deals, ∃ c ∈ d.costs, c.status = "Unregistered" ∧ c.cost_type = ct := by
  simp only [unregPairs, pairKey, List.mem_map, List.mem_flatMap, List.mem_filter,
    beq_iff_eq]
  constructor
  · rintro ⟨p, ⟨d, hd, c, ⟨hc, hstat⟩, rfl⟩, hkey⟩
    exact ⟨d, hd, c, hc, hstat, hkey⟩
  · rintro ⟨d, hd, c, hc, hstat, hct⟩
    exact ⟨(d.deal_id, c.cost_type, c.difference), ⟨d, hd, c, ⟨hc, hstat⟩, rfl⟩, hct⟩

theorem mem_unregDeals_iff (deals : List CDeal) (ct dealId : String) :
    dealId ∈ (pairsFor (unregPairs deals) ct).map pairDeal ↔
      ∃ d ∈ deals, d.deal_id = dealId ∧
        ∃ c ∈ d.costs, c.status = "Unregistered" ∧ c.cost_type = ct := by
  simp only [pairsFor, unregPairs, pairDeal, pairKey, List.mem_map, List.mem_filter,
    List.mem_flatMap, beq_iff_eq]
  constructor
  · rintro ⟨p, ⟨⟨d, hd, c, ⟨hc, hstat⟩, rfl⟩, hkey⟩, hid⟩
    exact ⟨d, hd, hid, c, hc, hstat, hkey⟩
  · rintro ⟨d, hd, hid, c, hc, hstat, hct⟩
    exact ⟨(d.deal_id, c.cost_type, c.difference),
      ⟨⟨d, hd, c, ⟨hc, hstat⟩, rfl⟩, hct⟩, hid⟩

theorem inner_impact (dealId : String) (costs : List CostComparison) (ct : String) :
    ((pairsFor ((costs.filter (fun c => c.status == "Unregistered")).map
        (fun c => (dealId, c.cost_type, c.difference))) ct).map pairImpact).sum =
      ((costs.filter (fun c => c.status == "Unregistered" && c.cost_type == ct)).map
        (fun c => |c.difference|)).sum := by
  induction costs with
  | nil => rfl
  | cons c rest ih =>
    simp only [pairsFor, pairKey] at ih ⊢
    by_cases h1 : c.status = "Unregistered" <;> by_cases h2 : c.cost_type = ct <;>
      simp [List.filter_cons, pairImpact, h1, h2, ih]

theorem impact_bridge (deals : List CDeal) (ct : String) :
    ((pairsFor (unregPairs deals) ct).map pairImpact).sum =
      (deals.map (fun d =>
        ((d.costs.filter (fun c => c.status == "Unregistered" && c.cost_type == ct)).map
          (fun c => |c.difference|)).sum)).sum := by
  induction deals with
  | nil => rfl
  | cons d rest ih =>
    rw [show unregPairs (d :: rest) =
        ((d.costs.filter (fun c => c.status == "Unregistered")).map
          (fun c => (d.deal_id, c.cost_type, c.difference))) ++ unregPairs rest from
      List.flatMap_cons ..]
    rw [show pairsFor (((d.costs.filter (fun c => c.status == "Unregistered")).map
          (fun c => (d.deal_id, c.cost_type, c.difference))) ++ unregPairs rest) ct =
        pairsFor ((d.costs.filter (fun c => c.status == "Unregistered")).map
          (fun c => (d.deal_id, c.cost_type, c.difference))) ct ++
          pairsFor (unregPairs rest) ct from List.filter_append ..]
    rw [List.map_append, List.sum_append, List.map_cons, List.sum_cons, ih,
      inner_impact]

/-- Claim C6: the unregistered-cost aggregation has exactly one entry per
cost type carrying at least one `Unregistered` comparison; each entry
holds the distinct deal ids on which that cost type is Unregistered, a
deal count equal to that set's size, an impact equal to the sum of the
absolute differences of those Unregistered comparisons; entries are
ordered by descending impact. -/
theorem claim_C6_aggregateUnregistered (deals : List CDeal) :
    ((aggregateUnregistered deals).map (fun e => e.cost_type)).Nodup
    ∧ (∀ ct, (∃ e ∈ aggregateUnregistered deals, e.cost_type = ct) ↔
        ∃ d ∈ deals, ∃ c ∈ d.costs, c.status = "Unregistered" ∧ c.cost_type = ct)
    ∧ (∀ e ∈ aggregateUnregistered deals,
        e.deals.Nodup
        ∧ (∀ dealId, dealId ∈ e.deals ↔
            ∃ d ∈ deals, d.deal_id = dealId ∧
              ∃ c ∈ d.costs, c.status = "Unregistered" ∧ c.cost_type = e.cost_type)
        ∧ e.deal_count = e.deals.length
        ∧ e.impact = (deals.map (fun d =>
            ((d.costs.filter (fun c =>
              c.status == "Unregistered" && c.cost_type == e.cost_type)).map
              (fun c => |c.difference|)).sum)).sum)
    ∧ List.Sorted impactGE (aggregateUnregistered deals) := by
  have hperm : (aggregateUnregistered deals).Perm (buildRegistry deals) :=
    List.perm_insertionSort impactGE (buildRegistry deals)
  have hkeys_reg : regKeys (buildRegistry deals) =
      ((unregPairs deals).map pairKey).foldl setAdd [] := by
    rw [buildRegistry, regKeys_fold]
    rfl
  have hkeys_nodup : (regKeys (buildRegistry deals)).Nodup := by
    rw [hkeys_reg]
    exact setFold_nodup _ _ List.nodup_nil
  have hfold : ∀ ct, regFind (buildRegistry deals) ct =
      if ct ∈ (unregPairs deals).map pairKey then
        some (applyAll (UEntry.mk ct 0 0 []) (pairsFor (unregPairs deals) ct))
      else none := by
    intro ct
    have h := regFind_fold (unregPairs deals) [] ct
    rw [buildRegistry]
    rw [show regFind [] ct = none from rfl] at h
    exact h
  have hmain : ∀ e ∈ buildRegistry deals,
      e = applyAll (UEntry.mk e.cost_type 0 0 [])
        (pairsFor (unregPairs deals) e.cost_type)
      ∧ e.cost_type ∈ (unregPairs deals).map pairKey := by
    intro e he
    have h1 := find_eq_of_mem (buildRegistry deals) hkeys_nodup he
    rw [hfold e.cost_type] at h1
    by_cases hm : e.cost_type ∈ (unregPairs deals).map pairKey
    · rw [if_pos hm] at h1
      exact ⟨(Option.some.injEq _ _ ▸ h1).symm, hm⟩
    · rw [if_neg hm] at h1
      cases h1
  have hkeys_mem : ∀ ct, ct ∈ regKeys (buildRegistry deals) ↔
      ct ∈ (unregPairs deals).map pairKey := by
    intro ct
    rw [hkeys_reg, setFold_mem]
    simp
  refine ⟨?_, ?_, ?_, ?_⟩
  · have h := (hperm.map (fun e => e.cost_type)).nodup_iff
    exact h.mpr hkeys_nodup
  · intro ct
    rw [← mem_unregKeys_iff, ← hkeys_mem]
    constructor
    · rintro ⟨e, he, rfl⟩
      exact List.mem_map_of_mem _ (hperm.mem_iff.mp he)
    · intro h
      obtain ⟨e, he, rfl⟩ := List.mem_map.mp h
      exact ⟨e, hperm.mem_iff.mpr he, rfl⟩
  · intro e he
    have hereg : e ∈ buildRegistry deals := hperm.mem_iff.mp he
    obtain ⟨heq, -⟩ := hmain e hereg
    have hdeals : e.deals =
        ((pairsFor (unregPairs deals) e.cost_type).map pairDeal).foldl setAdd [] := by
      have h := congrArg UEntry.deals heq
      rw [applyAll_deals] at h
      exact h
    refine ⟨?_, ?_, ?_, ?_⟩
    · rw [hdeals]
      exact setFold_nodup _ _ List.nodup_nil
    · intro dealId
      rw [hdeals, setFold_mem, mem_unregDeals_iff]
      simp
    · have h := congrArg UEntry.deal_count heq
      rw [applyAll_count _ _ rfl] at h
      rw [h, ← congrArg UEntry.deals heq]
    · have h := congrArg UEntry.impact heq
      rw [applyAll_impact] at h
      rw [h, impact_bridge]
      simp
  · exact List.sorted_insertionSort impactGE (buildRegistry deals)

/-- Witness for claim C6 at a concrete deal list: cost type `INS`
Unregistered on two deals with differences `-50` and `30`. -/
theorem claim_C6_aggregateUnregistered_witness :
    (UEntry.mk "INS" 80 2 ["D1", "D2"] ∈ aggregateUnregistered
        [CDeal.mk "D1" 0 0 0 [CostComparison.mk "INS" (-50) "Unregistered"],
         CDeal.mk "D2" 0 0 0 [CostComparison.mk "INS" 30 "Unregistered",
                              CostComparison.mk "BLC" 10 "Registered"]] →
      (UEntry.mk "INS" 80 2 ["D1", "D2"]).deal_count =
        (UEntry.mk "INS" 80 2 ["D1", "D2"]).deals.length)
    ∧ UEntry.mk "INS" 80 2 ["D1", "D2"] ∈ aggregateUnregistered
        [CDeal.mk "D1" 0 0 0 [CostComparison.mk "INS" (-50) "Unregistered"],
         CDeal.mk "D2" 0 0 0 [CostComparison.mk "INS" 30 "Unregistered",
                              CostComparison.mk "BLC" 10 "Registered"]] :=
  ⟨fun hmem => ((claim_C6_aggregateUnregistered
      [CDeal.mk "D1" 0 0 0 [CostComparison.mk "INS" (-50) "Unregistered"],
       CDeal.mk "D2" 0 0 0 [CostComparison.mk "INS" 30 "Unregistered",
                            CostComparison.mk "BLC" 10 "Registered"]]).2.2.1
      (UEntry.mk "INS" 80 2 ["D1", "D2"]) hmem).2.2.1,
   by decide⟩

/-!
Rule engine.  The eight business rules run server-side in `server.py`,
which is not among this repository's frontend sources; the engine below
is modelled from the specification (§4.3) and the README's "Step 2:
Business Rules" list.
-/

/-- One output cell of the computed columns E–K: a value plus a per-cell
lock mark. -/
structure CellState where
  value : Int
  locked : Bool
  deriving DecidableEq, Repr

/-- Assignment respecting a lock: a locked cell is excluded from
subsequent assignment. -/
def assignUnlessLocked (c : CellState) (v : Int) : CellState :=
  if c.locked then c else { c with value := v }

/-- Modelled from the spec: the fields of a RawDealRecord (§3) consumed
by the rule engine of the absent `server.py`. -/
structure RawDeal where
  dealNumber : String
  product : JSVal
  hedgeNumber : String
  isWhbCifDeal : Bool
  deriving DecidableEq, Repr

/-- Modelled from the spec: a HedgeRecord (§3). -/
structure HedgeRecord where
  vsaComment : String
  additionalInfo : String
  deriving DecidableEq, Repr

/-- Output row over the computed columns E–K, the TOTAL column L and the
lookup columns U, V (§4.3). -/
structure RowState where
  colE : CellState
  colF : CellState
  colG : CellState
  colH : CellState
  colI : CellState
  colJ : CellState
  colK : CellState
  colL : Int
  colU : String
  colV : String
  deriving DecidableEq, Repr

/-- Freshly assembled row: computed cells empty (zero) and unlocked. -/
def initRow : RowState :=
  RowState.mk (CellState.mk 0 false) (CellState.mk 0 false) (CellState.mk 0 false)
    (CellState.mk 0 false) (CellState.mk 0 false) (CellState.mk 0 false)
    (CellState.mk 0 false) 0 "" ""

/-- Modelled from the spec: the eight business rules of §4.3 in their
fixed order.  `costIndex` is the CostIndex lookup `(deal, type)` to
summed amount; `hedgeIndex` is the HedgeIndex lookup. -/
def applyRules (costIndex : String → String → Int)
    (hedgeIndex : String → Option HedgeRecord) (raw : RawDeal) : RowState :=
  let r1 := if normalize raw.product = "MIDLANDS" then
      { initRow with
        colE := CellState.mk 0 true, colF := CellState.mk 0 true,
        colG := CellState.mk 0 true, colH := CellState.mk 0 true,
        colI := CellState.mk 0 true, colJ := CellState.mk 0 true,
        colK := CellState.mk 0 true }
    else initRow
  let r2 := if raw.isWhbCifDeal then
      { r1 with
        colI := if r1.colI.locked then r1.colI else CellState.mk 0 true,
        colJ := if r1.colJ.locked then r1.colJ else CellState.mk 0 true }
    else r1
  let r3 := { r2 with colE := assignUnlessLocked r2.colE (costIndex raw.dealNumber "BLC") }
  let r4 := { r3 with colI := assignUnlessLocked r3.colI (costIndex raw.dealNumber "CIN") }
  let r5 := { r4 with colJ := assignUnlessLocked r4.colJ (costIndex raw.dealNumber "CLI") }
  let r6 := { r5 with colL := r5.colE.value + r5.colF.value + r5.colG.value +
      r5.colH.value + r5.colI.value + r5.colJ.value + r5.colK.value }
  match hedgeIndex raw.hedgeNumber with
  | some h => { r6 with colU := h.vsaComment, colV := h.additionalInfo }
  | none => { r6 with colU := "", colV := "" }

/-- Claim C2: for a deal whose product normalizes to `MIDLANDS`, the
assembled row has columns E–K equal to `0` and locked, and the TOTAL
column L equal to `0`, overriding any BLC/CIN/CLI cost-index lookups. -/
theorem claim_C2_midlands (costIndex : String → String → Int)
    (hedgeIndex : String → Option HedgeRecord) (raw : RawDeal)
    (h : normalize raw.product = "MIDLANDS") :
    (applyRules costIndex hedgeIndex raw).colE = CellState.mk 0 true
    ∧ (applyRules costIndex hedgeIndex raw).colF = CellState.mk 0 true
    ∧ (applyRules costIndex hedgeIndex raw).colG = CellState.mk 0 true
    ∧ (applyRules costIndex hedgeIndex raw).colH = CellState.mk 0 true
    ∧ (applyRules costIndex hedgeIndex raw).colI = CellState.mk 0 true
    ∧ (applyRules costIndex hedgeIndex raw).colJ = CellState.mk 0 true
    ∧ (applyRules costIndex hedgeIndex raw).colK = CellState.mk 0 true
    ∧ (applyRules costIndex hedgeIndex raw).colL = 0 := by
  unfold applyRules
  rw [if_pos h]
  rcases hh : hedgeIndex raw.hedgeNumber with _ | hr <;>
    by_cases hw : raw.isWhbCifDeal <;>
      simp [hw, hh, assignUnlessLocked]

/-- Witness for claim C2: the spec scenario — a MIDLANDS row with nonzero
BLC/CIN/CLI costs still yields all-zero locked E–K and L = 0. -/
theorem claim_C2_midlands_witness :
    (applyRules (fun _ _ => 300) (fun _ => none)
        (RawDeal.mk "D7" (JSVal.str " midlands ") "H1" false)).colE = CellState.mk 0 true
    ∧ (applyRules (fun _ _ => 300) (fun _ => none)
        (RawDeal.mk "D7" (JSVal.str " midlands ") "H1" false)).colL = 0 :=
  have h := claim_C2_midlands (fun _ _ => 300) (fun _ => none)
    (RawDeal.mk "D7" (JSVal.str " midlands ") "H1" false) (by decide)
  ⟨h.1, h.2.2.2.2.2.2.2⟩

/-!
HTTP error contract.  Request handling lives in `server.py` (not among
this repository's sources); modelled from the specification §6–§7 and
exercised by the repository's bad-upload test.
-/

/-- Error kinds of §7. -/
inductive ErrKind where
  | missingSheet
  | missingColumn
  | insufficientRows
  | invalidFileFormat
  | unknownToken
  | internalProcessingError
  deriving DecidableEq, Repr

/-- Caller-fixable validation failures (§7, first four kinds). -/
def isValidationKind : ErrKind → Bool
  | ErrKind.missingSheet => true
  | ErrKind.missingColumn => true
  | ErrKind.insufficientRows => true
  | ErrKind.invalidFileFormat => true
  | _ => false

/-- Response body: a binary artifact on success, `{error: message}` on
failure. -/
inductive Body where
  | file (bytes : List Nat)
  | errorObj (message : String)
  deriving DecidableEq, Repr

/-- HTTP response: status code and body. -/
structure HttpResponse where
  status : Nat
  body : Body
  deriving DecidableEq, Repr

/-- Outcome of processing one request. -/
inductive RequestOutcome where
  | success (bytes : List Nat)
  | failure (kind : ErrKind) (message : String)
  deriving DecidableEq, Repr

/-- Modelled from the spec: HTTP status per error kind — 4xx (400) for
validation failures, a 404-equivalent for an unknown token, 5xx (500)
for unexpected internal failures (§6 and §7). -/
def statusFor : ErrKind → Nat
  | ErrKind.missingSheet => 400
  | ErrKind.missingColumn => 400
  | ErrKind.insufficientRows => 400
  | ErrKind.invalidFileFormat => 400
  | ErrKind.unknownToken => 404
  | ErrKind.internalProcessingError => 500

/-- Modelled from the spec: response construction of the absent
`server.py` — 200 with the artifact on success, `{error: message}` with
the error status on failure (§6). -/
def respond : RequestOutcome → HttpResponse
  | RequestOutcome.success bytes => HttpResponse.mk 200 (Body.file bytes)
  | RequestOutcome.failure kind message =>
    HttpResponse.mk (statusFor kind) (Body.errorObj message)

/-- Claim C7: every validation failure yields a 4xx response (400 for an
invalid file format) whose body is `{error: message}`, and never a success
response. -/
theorem claim_C7_error_responses (kind : ErrKind) (message : String)
    (h : isValidationKind kind = true) :
    400 ≤ (respond (RequestOutcome.failure kind message)).status
    ∧ (respond (RequestOutcome.failure kind message)).status < 500
    ∧ (kind = ErrKind.invalidFileFormat →
        (respond (RequestOutcome.failure kind message)).status = 400)
    ∧ (respond (RequestOutcome.failure kind message)).body = Body.errorObj message
    ∧ ∀ bytes, respond (RequestOutcome.failure kind message) ≠
        respond (RequestOutcome.success bytes) := by
  cases kind <;> simp_all [respond, statusFor, isValidationKind]

/-- Witness for claim C7: the bad-upload test scenario — an invalid file
format gives HTTP 400 with an `{error: ...}` body. -/
theorem claim_C7_error_responses_witness :
    (respond (RequestOutcome.failure ErrKind.invalidFileFormat
        "Please select a valid Excel file")).status = 400
    ∧ (respond (RequestOutcome.failure ErrKind.invalidFileFormat
        "Please select a valid Excel file")).body =
      Body.errorObj "Please select a valid Excel file" :=
  have h := claim_C7_error_responses ErrKind.invalidFileFormat
    "Please select a valid Excel file" (by decide)
  ⟨h.2.2.1 rfl, h.2.2.2.1⟩

/-!
Analysis token store and export determinism.  The store and the export
renderers live in `server.py` (not among this repository's sources);
modelled from the specification §4.6 and §6.
-/

/-- Modelled from the spec: the stored ReconciliationResult fields
relevant to exports (§3). -/
structure ReconciliationResult where
  totalDeals : Nat
  totalDifference : Int
  deals : List CDeal
  deriving DecidableEq, Repr

/-- Export formats of `/compare-deals/export/...` (spreadsheet,
delimited text, printable summary). -/
inductive ExportFormat where
  | excel
  | csv
  | pdf
  deriving DecidableEq, Repr

/-- Modelled from the spec: token store mapping an opaque token to the
reconciliation result of its run (§4.6). -/
structure TokenStore where
  entries : List (String × ReconciliationResult)
  deriving DecidableEq, Repr

/-- Store lookup by token. -/
def TokenStore.lookup (store : TokenStore) (token : String) :
    Option ReconciliationResult :=
  (store.entries.find? (fun p => p.1 == token)).map Prod.snd

/-- Modelled from the spec: each export renderer is a pure function of
the stored result; a canonical byte serialization stands in for the
binary artifacts. -/
def exportResult (fmt : ExportFormat) (r : ReconciliationResult) : List Nat :=
  (match fmt with
    | ExportFormat.excel => 0
    | ExportFormat.csv => 1
    | ExportFormat.pdf => 2) ::
    r.totalDeals :: r.totalDifference.natAbs ::
      r.deals.flatMap (fun d => (d.deal_id.data.map Char.toNat) ++ [d.difference.natAbs])

/-- Modelled from the spec: handling of one export-by-token request — the
store is read, never mutated, and the artifact is computed from the
stored result alone. -/
def handleExport (store : TokenStore) (fmt : ExportFormat) (token : String) :
    TokenStore × Option (List Nat) :=
  (store, (store.lookup token).map (exportResult fmt))

/-- Claim C8: exporting the same token twice (while the token is still
stored) yields byte-identical output — the export is a deterministic
function of the stored result, and the export request leaves the store
unchanged. -/
theorem claim_C8_export_roundtrip (store : TokenStore) (fmt : ExportFormat)
    (token : String) :
    (handleExport (handleExport store fmt token).1 fmt token).2 =
      (handleExport store fmt token).2
    ∧ (handleExport store fmt token).1 = store
    ∧ ∀ r, store.lookup token = some r →
        (handleExport store fmt token).2 = some (exportResult fmt r) := by
  refine ⟨rfl, rfl, ?_⟩
  intro r hr
  simp [handleExport, hr]

/-- Witness for claim C8 at a concrete one-entry store. -/
theorem claim_C8_export_roundtrip_witness :
    (handleExport (TokenStore.mk [("tok1", ReconciliationResult.mk 1 200
        [CDeal.mk "D1" 1000 800 200 []])]) ExportFormat.csv "tok1").2 =
      some (exportResult ExportFormat.csv
        (ReconciliationResult.mk 1 200 [CDeal.mk "D1" 1000 800 200 []])) :=
  (claim_C8_export_roundtrip (TokenStore.mk [("tok1", ReconciliationResult.mk 1 200
      [CDeal.mk "D1" 1000 800 200 []])]) ExportFormat.csv "tok1").2.2
    (ReconciliationResult.mk 1 200 [CDeal.mk "D1" 1000 800 200 []]) (by decide)

end App
